import Mathlib

/-!
Verification development for the multi-Splunk query fan-out tool
(`multi_splunk_query.py`).  The Python source is shallowly embedded:
strings are `List Char`, the transport layer (Splunk SDK / HTTP REST)
is an explicit environment of `Except`-valued responses, and each
adapter additionally returns the list of transport calls it issued so
that call-shape properties (fixed search window, no retrieval after a
missing sid) can be stated.
-/

namespace MultiSplunk

/-- The character class stripped by Python `str.strip()` (the
`str.isspace()` predicate): U+0009-U+000D, U+001C-U+001F, U+0020,
U+0085, U+00A0, U+1680, U+2000-U+200A, U+2028, U+2029, U+202F, U+205F
and U+3000. -/
def isSpace (c : Char) : Bool :=
  c == ' ' || c == '\t' || c == '\n' || c == '\x0b' || c == '\x0c' || c == '\r'
  || (0x1c ≤ c.toNat && c.toNat ≤ 0x1f)
  || c.toNat == 0x85 || c.toNat == 0xa0 || c.toNat == 0x1680
  || (0x2000 ≤ c.toNat && c.toNat ≤ 0x200a)
  || c.toNat == 0x2028 || c.toNat == 0x2029 || c.toNat == 0x202f
  || c.toNat == 0x205f || c.toNat == 0x3000

/-- Python `s.rstrip()`: drop trailing whitespace. -/
def rstrip (s : List Char) : List Char :=
  (s.reverse.dropWhile isSpace).reverse

/-- Python `s.strip()`: drop leading and trailing whitespace. -/
def strip (s : List Char) : List Char :=
  rstrip (s.dropWhile isSpace)

/-- The literal `search`. -/
def searchLit : List Char := "search".toList

/-- The literal `|`. -/
def pipeLit : List Char := "|".toList

/-- Mirror of `SplunkQueryExecutor.normalize_query` (src lines 145-150): strip the
query; if it does not start with `search` nor with `|`, prepend
`search ` (`f"search {query}"`). -/
def normalize_query (query : List Char) : List Char :=
  let q := strip query
  if !(searchLit.isPrefixOf q) && !(pipeLit.isPrefixOf q) then
    searchLit ++ ' ' :: q
  else q

/-! ### Lemmas about `strip` -/

theorem dropWhile_dropWhile (p : α → Bool) (l : List α) :
    (l.dropWhile p).dropWhile p = l.dropWhile p := by
  induction l with
  | nil => rfl
  | cons a as ih =>
    by_cases h : p a = true
    · simp [List.dropWhile_cons, h, ih]
    · simp [List.dropWhile_cons, h]

theorem head_dropWhile_false (p : α → Bool) (l : List α) (a : α) (t : List α)
    (h : l.dropWhile p = a :: t) : p a = false := by
  induction l with
  | nil => simp [List.dropWhile] at h
  | cons b bs ih =>
    by_cases hb : p b = true
    · simp [List.dropWhile_cons, hb] at h
      exact ih h
    · simp [List.dropWhile_cons, hb] at h
      rw [← h.1]
      simp [hb]

theorem dropWhile_suffix_decomp (p : α → Bool) (l : List α) :
    ∃ l₁, l = l₁ ++ l.dropWhile p := by
  induction l with
  | nil => exact ⟨[], rfl⟩
  | cons a as ih =>
    by_cases h : p a = true
    · obtain ⟨l₁, hl⟩ := ih
      refine ⟨a :: l₁, ?_⟩
      simp [List.dropWhile_cons, h]
      exact hl
    · exact ⟨[], by simp [List.dropWhile_cons, h]⟩

theorem dropWhile_eq_self_of_head (p : α → Bool) (a : α) (t : List α)
    (h : p a = false) : (a :: t).dropWhile p = a :: t := by
  simp [List.dropWhile_cons, h]

/-- `rstrip` is idempotent. -/
theorem rstrip_rstrip (s : List Char) : rstrip (rstrip s) = rstrip s := by
  unfold rstrip
  rw [List.reverse_reverse, dropWhile_dropWhile]

/-- The head of a stripped nonempty string is not whitespace. -/
theorem strip_head_not_space (s : List Char) (a : Char) (t : List Char)
    (h : strip s = a :: t) : isSpace a = false := by
  unfold strip rstrip at h
  -- strip s = reverse (dropWhile isSpace (reverse (dropWhile isSpace s)))
  set u := s.dropWhile isSpace with hu
  obtain ⟨l₁, hdec⟩ := dropWhile_suffix_decomp isSpace u.reverse
  -- u.reverse = l₁ ++ d where d = dropWhile of u.reverse; strip s = d.reverse
  have hs : (u.reverse.dropWhile isSpace).reverse = a :: t := h
  -- u = d.reverse ++ l₁.reverse
  have hu2 : u = (u.reverse.dropWhile isSpace).reverse ++ l₁.reverse := by
    conv_lhs => rw [← u.reverse_reverse, hdec]
    rw [List.reverse_append]
  rw [hs] at hu2
  -- so u = a :: (t ++ l₁.reverse); head of u is not space
  have huu : u.dropWhile isSpace = u := by rw [hu, dropWhile_dropWhile]
  rw [hu2] at huu
  exact head_dropWhile_false isSpace _ a (t ++ l₁.reverse) huu

/-- The last character of a stripped nonempty string is not whitespace. -/
theorem strip_getLast_not_space (s : List Char) (a : Char) (t : List Char)
    (h : (strip s).reverse = a :: t) : isSpace a = false := by
  unfold strip rstrip at h
  rw [List.reverse_reverse] at h
  exact head_dropWhile_false isSpace _ a t h

/-- `strip` is idempotent. -/
theorem strip_strip (s : List Char) : strip (strip s) = strip s := by
  rcases hs : strip s with _ | ⟨a, t⟩
  · simp [strip, rstrip, hs, List.dropWhile]
  · have ha : isSpace a = false := strip_head_not_space s a t hs
    unfold strip
    rw [dropWhile_eq_self_of_head isSpace a t ha]
    rw [← hs]
    unfold strip
    exact rstrip_rstrip _

/-- A string whose first and last characters are not whitespace is
unchanged by `strip`. -/
theorem strip_eq_self (l : List Char) (a : Char) (t : List Char) (b : Char) (r : List Char)
    (hl : l = a :: t) (hr : l.reverse = b :: r)
    (ha : isSpace a = false) (hb : isSpace b = false) :
    strip l = l := by
  unfold strip rstrip
  rw [hl, dropWhile_eq_self_of_head isSpace a t ha, ← hl, hr,
    dropWhile_eq_self_of_head isSpace b r hb, ← hr, List.reverse_reverse]

theorem isPrefixOf_append_self (p l : List Char) : p.isPrefixOf (p ++ l) = true := by
  induction p with
  | nil => simp [List.isPrefixOf]
  | cons a as ih => simp [List.isPrefixOf, ih]

theorem searchLit_eq : searchLit = ['s', 'e', 'a', 'r', 'c', 'h'] := rfl

/-! ### The normalizer claims -/

/-- C2: `normalize_query` trims surrounding whitespace and prepends
`search ` (with a single separating space) exactly when the trimmed text
does not already start with `search` or `|`; it is a total function, and
the empty string yields exactly `"search "` with the trailing space. -/
theorem normalize_query_characterization (raw : List Char) :
    ((searchLit.isPrefixOf (strip raw) || pipeLit.isPrefixOf (strip raw)) = true →
      normalize_query raw = strip raw)
    ∧ ((searchLit.isPrefixOf (strip raw) || pipeLit.isPrefixOf (strip raw)) = false →
      normalize_query raw = searchLit ++ ' ' :: strip raw)
    ∧ normalize_query [] = "search ".toList := by
  refine ⟨?_, ?_, by decide⟩
  · intro h
    simp only [normalize_query]
    rw [show (!searchLit.isPrefixOf (strip raw) && !pipeLit.isPrefixOf (strip raw))
        = !(searchLit.isPrefixOf (strip raw) || pipeLit.isPrefixOf (strip raw)) by
      cases searchLit.isPrefixOf (strip raw) <;> cases pipeLit.isPrefixOf (strip raw) <;> rfl]
    rw [h]
    rfl
  · intro h
    simp only [normalize_query]
    rw [show (!searchLit.isPrefixOf (strip raw) && !pipeLit.isPrefixOf (strip raw))
        = !(searchLit.isPrefixOf (strip raw) || pipeLit.isPrefixOf (strip raw)) by
      cases searchLit.isPrefixOf (strip raw) <;> cases pipeLit.isPrefixOf (strip raw) <;> rfl]
    rw [h]
    rfl

/-- Witness for C2 at concrete inputs: `"  foo "` does not start with
`search` or `|` once trimmed, and is normalized to `"search foo"`. -/
theorem normalize_query_characterization_witness :
    (searchLit.isPrefixOf (strip "  foo ".toList)
      || pipeLit.isPrefixOf (strip "  foo ".toList)) = false
    ∧ normalize_query "  foo ".toList = searchLit ++ ' ' :: strip "  foo ".toList :=
  ⟨by decide, (normalize_query_characterization "  foo ".toList).2.1 (by decide)⟩

/-- C3 counterexample: on the empty string (any whitespace-only string),
`normalize_query` is NOT idempotent: the first application yields
`"search "` (trailing space), the second strips that trailing space and
returns `"search"`. -/
theorem normalize_query_not_idempotent_on_empty :
    normalize_query (normalize_query "".toList) ≠ normalize_query "".toList := by
  decide

/-- C3 amended: `normalize_query` is idempotent on every input whose
trimmed form is nonempty; whitespace-only inputs are the only
counterexamples. -/
theorem normalize_query_idempotent_of_strip_ne_nil (q : List Char)
    (h : strip q ≠ []) :
    normalize_query (normalize_query q) = normalize_query q := by
  have hg : ∀ x : List Char,
      (!searchLit.isPrefixOf x && !pipeLit.isPrefixOf x)
        = !(searchLit.isPrefixOf x || pipeLit.isPrefixOf x) := by
    intro x
    cases searchLit.isPrefixOf x <;> cases pipeLit.isPrefixOf x <;> rfl
  by_cases hc : (searchLit.isPrefixOf (strip q) || pipeLit.isPrefixOf (strip q)) = true
  · -- already starts with `search` or `|`: both applications return `strip q`
    have h1 : normalize_query q = strip q := by
      simp only [normalize_query, hg, hc]
      rfl
    rw [h1]
    simp only [normalize_query, strip_strip, hg, hc]
    rfl
  · rw [Bool.not_eq_true] at hc
    have h1 : normalize_query q = searchLit ++ ' ' :: strip q := by
      simp only [normalize_query, hg, hc]
      rfl
    rw [h1]
    -- the prepended result starts with a non-space char and, since
    -- `strip q ≠ []`, ends with a non-space char: `strip` leaves it alone
    rcases hrev : (strip q).reverse with _ | ⟨b, r⟩
    · exact absurd (List.reverse_eq_nil_iff.mp hrev) h
    have hb : isSpace b = false := strip_getLast_not_space q b r hrev
    have hstr : strip (searchLit ++ ' ' :: strip q) = searchLit ++ ' ' :: strip q := by
      refine strip_eq_self _ 's' (['e', 'a', 'r', 'c', 'h'] ++ ' ' :: strip q)
        b (r ++ [' '] ++ searchLit.reverse) ?_ ?_ (by decide) hb
      · rw [searchLit_eq]; rfl
      · rw [List.reverse_append, List.reverse_cons, hrev]
        simp
    simp only [normalize_query, hstr, hg, isPrefixOf_append_self]
    rfl

/-- Witness for the amended C3 at a concrete input with nonempty trim. -/
theorem normalize_query_idempotent_witness :
    strip "error".toList ≠ []
    ∧ normalize_query (normalize_query "error".toList) = normalize_query "error".toList :=
  ⟨by decide, normalize_query_idempotent_of_strip_ne_nil "error".toList (by decide)⟩

/-! ### Data model (src lines 39-50) -/

/-- A result row: a mapping from field name to string value (schema not
fixed; modelled as an association list). -/
abbrev Row := List (List Char × List Char)

/-- Mirror of `SplunkInstance` (src lines 39-50): configuration of one Splunk
endpoint. -/
structure SplunkInstance where
  name : List Char
  host : List Char
  port : Nat
  scheme : List Char
  auth_type : List Char
  token : List Char
  verify : Bool
  app : List Char
  owner : List Char

/-- One entry yielded by the SDK `JSONResultsReader` stream: either a
plain record (`isinstance(result, dict)`) or some other reader-emitted
entry (diagnostic message), which the code filters out. -/
inductive ReaderEntry where
  | record (r : Row)
  | other (m : List Char)

/-- A record of one outbound transport call, with the arguments the code
passes: used to state which calls each execution path issues. -/
inductive CallRec where
  | sdkConnect (token : List Char)
  | sdkCreateJob (query execMode earliestTime latestTime : List Char)
  | sdkFetchResults (outputMode : List Char) (count : Nat)
  | restPost (query execMode earliestTime latestTime outputMode : List Char)
  | restGet (outputMode : List Char) (count : Nat)
deriving DecidableEq

/-- Behaviour of the Splunk SDK transport for one execution: each call
either raises (`.error` with the exception text `str(e)`) or returns. -/
structure SdkEnv where
  connect : Except (List Char) Unit
  createJob : Except (List Char) Unit
  fetchResults : Except (List Char) (List ReaderEntry)

/-- The parsed body of the REST job-creation response:
`job_info.get('sid')` may be absent. -/
structure JobInfo where
  sid : Option (List Char)

/-- Behaviour of the HTTP REST transport for one execution.  A `.error`
covers every fault the `try` block can see: connection refused, TLS
failure, timeout, `raise_for_status` on a non-2xx status, or a malformed
JSON body.  `getResults` returns `results_data.get('results', [])`, so
an absent `results` key is `none`. -/
structure RestEnv where
  postJob : Except (List Char) JobInfo
  getResults : Except (List Char) (Option (List Row))

/-- Both transports together. -/
structure TransportEnv where
  sdk : SdkEnv
  rest : RestEnv

def sdkErrorLabel : List Char := "Error SDK: ".toList

def restErrorLabel : List Char := "Error REST: ".toList

def sidMissingMsg : List Char := "No se pudo obtener SID del job".toList

def blockingLit : List Char := "blocking".toList

def earliestLit : List Char := "-24h".toList

def latestLit : List Char := "now".toList

def jsonLit : List Char := "json".toList

def splunkLit : List Char := "splunk".toList

def bearerLit : List Char := "bearer".toList

def splunkTokenLabel : List Char := "Splunk ".toList

/-- Mirror of `execute_splunk_sdk` (src lines 152-196): token prefixing, connect,
blocking job creation with the fixed `-24h`/`now` window, result fetch,
and the `isinstance(result, dict)` filter; the whole body is wrapped in
`try/except Exception` returning `([], "Error SDK: " + str(e))`.
Besides the `(rows, error)` pair of the source it returns the transport
calls issued. -/
def execute_splunk_sdk (env : SdkEnv) (inst : SplunkInstance) (query : List Char) :
    (List Row × Option (List Char)) × List CallRec :=
  let tokenValue :=
    if inst.auth_type = splunkLit ∧ ¬ (splunkTokenLabel.isPrefixOf inst.token = true) then
      splunkTokenLabel ++ inst.token
    else inst.token
  match env.connect with
  | .error e => (([], some (sdkErrorLabel ++ e)), [.sdkConnect tokenValue])
  | .ok _ =>
    match env.createJob with
    | .error e =>
      (([], some (sdkErrorLabel ++ e)),
        [.sdkConnect tokenValue, .sdkCreateJob query blockingLit earliestLit latestLit])
    | .ok _ =>
      match env.fetchResults with
      | .error e =>
        (([], some (sdkErrorLabel ++ e)),
          [.sdkConnect tokenValue, .sdkCreateJob query blockingLit earliestLit latestLit,
            .sdkFetchResults jsonLit 0])
      | .ok entries =>
        ((entries.filterMap (fun en =>
            match en with
            | .record r => some r
            | .other _ => none), none),
          [.sdkConnect tokenValue, .sdkCreateJob query blockingLit earliestLit latestLit,
            .sdkFetchResults jsonLit 0])

/-- Mirror of `execute_bearer_rest` (src lines 198-257): POST the job-creation
request with the fixed window, extract the sid (`ValueError` caught by
the same handler when absent), GET the results, default missing
`results` to `[]`; the whole body is wrapped in `try/except Exception`
returning `([], "Error REST: " + str(e))`. -/
def execute_bearer_rest (env : RestEnv) (inst : SplunkInstance) (query : List Char) :
    (List Row × Option (List Char)) × List CallRec :=
  match env.postJob with
  | .error e =>
    (([], some (restErrorLabel ++ e)),
      [.restPost query blockingLit earliestLit latestLit jsonLit])
  | .ok jobInfo =>
    match jobInfo.sid with
    | none =>
      (([], some (restErrorLabel ++ sidMissingMsg)),
        [.restPost query blockingLit earliestLit latestLit jsonLit])
    | some _ =>
      match env.getResults with
      | .error e =>
        (([], some (restErrorLabel ++ e)),
          [.restPost query blockingLit earliestLit latestLit jsonLit, .restGet jsonLit 0])
      | .ok body =>
        ((body.getD [], none),
          [.restPost query blockingLit earliestLit latestLit jsonLit, .restGet jsonLit 0])

/-- Mirror of `execute` (src lines 259-270): normalize the query, then dispatch on
`auth_type`: `'splunk'` to the SDK adapter, `'bearer'` to the REST
adapter, anything else to an immediate error with no transport call. -/
def execute (env : TransportEnv) (inst : SplunkInstance) (query : List Char) :
    (List Row × Option (List Char)) × List CallRec :=
  let normalized_query := normalize_query query
  if inst.auth_type = splunkLit then
    execute_splunk_sdk env.sdk inst normalized_query
  else if inst.auth_type = bearerLit then
    execute_bearer_rest env.rest inst normalized_query
  else
    (([], some ("Tipo de autenticación no soportado: ".toList ++ inst.auth_type)), [])

/-! ### Adapter selection and error-handling claims -/

/-- Case analysis of `execute` on the endpoint's `auth_type` (shared
helper lemma). -/
theorem execute_cases (env : TransportEnv) (inst : SplunkInstance) (q : List Char) :
    (inst.auth_type = splunkLit →
      execute env inst q = execute_splunk_sdk env.sdk inst (normalize_query q))
    ∧ (inst.auth_type = bearerLit →
      execute env inst q = execute_bearer_rest env.rest inst (normalize_query q))
    ∧ (inst.auth_type ≠ splunkLit → inst.auth_type ≠ bearerLit →
      execute env inst q =
        (([], some ("Tipo de autenticación no soportado: ".toList ++ inst.auth_type)), [])) := by
  refine ⟨fun h => ?_, fun h => ?_, fun h1 h2 => ?_⟩
  · simp [execute, h]
  · have hbs : ¬ (bearerLit = splunkLit) := by decide
    simp [execute, h, hbs]
  · simp [execute, h1, h2]

/-- C4: `execute` dispatches the session mode (source literal
`'splunk'`, the spec's `session`) to the SDK adapter and `'bearer'` to
the REST adapter; any other `auth_type` yields an immediate failure
classified as an unsupported authentication mode and issues no transport
call at all (empty call list). -/
theorem execute_dispatch (env : TransportEnv) (inst : SplunkInstance) (q : List Char) :
    (inst.auth_type = splunkLit →
      execute env inst q = execute_splunk_sdk env.sdk inst (normalize_query q))
    ∧ (inst.auth_type = bearerLit →
      execute env inst q = execute_bearer_rest env.rest inst (normalize_query q))
    ∧ (inst.auth_type ≠ splunkLit → inst.auth_type ≠ bearerLit →
      execute env inst q =
        (([], some ("Tipo de autenticación no soportado: ".toList ++ inst.auth_type)), [])) :=
  execute_cases env inst q

/-- Witness for C4: an endpoint with `auth_type = "oauth"` gets the
unsupported-auth failure and no transport call. -/
theorem execute_dispatch_witness :
    execute ⟨⟨.ok (), .ok (), .ok []⟩, ⟨.ok ⟨none⟩, .ok none⟩⟩
        ⟨"a".toList, "h".toList, 8089, "https".toList, "oauth".toList,
          "t".toList, true, "search".toList, "admin".toList⟩ "q".toList
      = (([], some ("Tipo de autenticación no soportado: ".toList ++ "oauth".toList)), []) :=
  (execute_dispatch ⟨⟨.ok (), .ok (), .ok []⟩, ⟨.ok ⟨none⟩, .ok none⟩⟩
    ⟨"a".toList, "h".toList, 8089, "https".toList, "oauth".toList,
      "t".toList, true, "search".toList, "admin".toList⟩ "q".toList).2.2
    (by decide) (by decide)

/-- C5: every transport-level fault raised inside either adapter is
caught locally and converted into a failure outcome carrying the
human-readable classification (`"Error SDK: "`/`"Error REST: "` plus the
exception text); and on every environment whatsoever each adapter
returns either a success outcome or such a classified `([], some msg)`
failure — it never propagates a fault past its boundary. -/
theorem adapters_catch_all_faults (se : SdkEnv) (re : RestEnv)
    (inst : SplunkInstance) (q e : List Char) :
    (se.connect = .error e →
      (execute_splunk_sdk se inst q).1 = ([], some (sdkErrorLabel ++ e)))
    ∧ (se.connect = .ok () → se.createJob = .error e →
      (execute_splunk_sdk se inst q).1 = ([], some (sdkErrorLabel ++ e)))
    ∧ (se.connect = .ok () → se.createJob = .ok () → se.fetchResults = .error e →
      (execute_splunk_sdk se inst q).1 = ([], some (sdkErrorLabel ++ e)))
    ∧ (re.postJob = .error e →
      (execute_bearer_rest re inst q).1 = ([], some (restErrorLabel ++ e)))
    ∧ (∀ info s, re.postJob = .ok info → info.sid = some s → re.getResults = .error e →
      (execute_bearer_rest re inst q).1 = ([], some (restErrorLabel ++ e)))
    ∧ ((execute_splunk_sdk se inst q).1.2 = none
        ∨ ∃ m, (execute_splunk_sdk se inst q).1 = ([], some m))
    ∧ ((execute_bearer_rest re inst q).1.2 = none
        ∨ ∃ m, (execute_bearer_rest re inst q).1 = ([], some m)) := by
  refine ⟨fun h1 => ?_, fun h1 h2 => ?_, fun h1 h2 h3 => ?_, fun h1 => ?_,
    fun info s h1 h2 h3 => ?_, ?_, ?_⟩
  · simp [execute_splunk_sdk, h1]
  · simp [execute_splunk_sdk, h1, h2]
  · simp [execute_splunk_sdk, h1, h2, h3]
  · simp [execute_bearer_rest, h1]
  · simp [execute_bearer_rest, h1, h2, h3]
  · rcases h1 : se.connect with e1 | u
    · exact Or.inr ⟨sdkErrorLabel ++ e1, by simp [execute_splunk_sdk, h1]⟩
    rcases h2 : se.createJob with e2 | u2
    · exact Or.inr ⟨sdkErrorLabel ++ e2, by simp [execute_splunk_sdk, h1, h2]⟩
    rcases h3 : se.fetchResults with e3 | entries
    · exact Or.inr ⟨sdkErrorLabel ++ e3, by simp [execute_splunk_sdk, h1, h2, h3]⟩
    · exact Or.inl (by simp [execute_splunk_sdk, h1, h2, h3])
  · rcases h1 : re.postJob with e1 | info
    · exact Or.inr ⟨restErrorLabel ++ e1, by simp [execute_bearer_rest, h1]⟩
    rcases h2 : info.sid with _ | s
    · exact Or.inr ⟨restErrorLabel ++ sidMissingMsg, by simp [execute_bearer_rest, h1, h2]⟩
    rcases h3 : re.getResults with e3 | body
    · exact Or.inr ⟨restErrorLabel ++ e3, by simp [execute_bearer_rest, h1, h2, h3]⟩
    · exact Or.inl (by simp [execute_bearer_rest, h1, h2, h3])

/-- Witness for C5: a connection fault in the SDK adapter is converted
into the classified failure outcome. -/
theorem adapters_catch_all_faults_witness :
    (execute_splunk_sdk ⟨.error "conn refused".toList, .ok (), .ok []⟩
      ⟨"a".toList, "h".toList, 8089, "https".toList, "splunk".toList,
        "t".toList, true, "search".toList, "admin".toList⟩ "search x".toList).1
      = ([], some (sdkErrorLabel ++ "conn refused".toList)) :=
  (adapters_catch_all_faults ⟨.error "conn refused".toList, .ok (), .ok []⟩
    ⟨.ok ⟨none⟩, .ok none⟩
    ⟨"a".toList, "h".toList, 8089, "https".toList, "splunk".toList,
      "t".toList, true, "search".toList, "admin".toList⟩
    "search x".toList "conn refused".toList).1 rfl

/-- C6: when the bearer-mode job-creation response carries no sid, the
adapter fails with the protocol-error classification
(`"Error REST: No se pudo obtener SID del job"`), and the call list is
exactly the single POST — no result-retrieval GET is attempted. -/
theorem bearer_missing_sid (re : RestEnv) (inst : SplunkInstance) (q : List Char)
    (info : JobInfo) (h1 : re.postJob = .ok info) (h2 : info.sid = none) :
    (execute_bearer_rest re inst q).1 = ([], some (restErrorLabel ++ sidMissingMsg))
    ∧ (execute_bearer_rest re inst q).2
        = [.restPost q blockingLit earliestLit latestLit jsonLit]
    ∧ ∀ om c, CallRec.restGet om c ∉ (execute_bearer_rest re inst q).2 := by
  refine ⟨?_, ?_, ?_⟩
  · simp [execute_bearer_rest, h1, h2]
  · simp [execute_bearer_rest, h1, h2]
  · intro om c
    simp [execute_bearer_rest, h1, h2]

/-- Witness for C6: a concrete run whose creation response has no sid. -/
theorem bearer_missing_sid_witness :
    (execute_bearer_rest ⟨.ok ⟨none⟩, .ok (some [])⟩
      ⟨"a".toList, "h".toList, 8089, "https".toList, "bearer".toList,
        "t".toList, true, "search".toList, "admin".toList⟩ "search x".toList).1
      = ([], some (restErrorLabel ++ sidMissingMsg)) :=
  (bearer_missing_sid ⟨.ok ⟨none⟩, .ok (some [])⟩
    ⟨"a".toList, "h".toList, 8089, "https".toList, "bearer".toList,
      "t".toList, true, "search".toList, "admin".toList⟩
    "search x".toList ⟨none⟩ rfl rfl).1

/-- A job-submission call carries exactly the fixed recency window
(`earliest_time="-24h"`, `latest_time="now"`) and blocking execution
mode; calls that are not job submissions are unconstrained. -/
def fixedWindowCall : CallRec → Bool
  | .sdkCreateJob _ em ee ll => em == blockingLit && ee == earliestLit && ll == latestLit
  | .restPost _ em ee ll _ => em == blockingLit && ee == earliestLit && ll == latestLit
  | _ => true

theorem sdk_calls_fixed_window (se : SdkEnv) (inst : SplunkInstance) (q : List Char) :
    (execute_splunk_sdk se inst q).2.all fixedWindowCall = true := by
  rcases h1 : se.connect with e1 | u1
  · simp [execute_splunk_sdk, h1, fixedWindowCall]
  rcases h2 : se.createJob with e2 | u2
  · simp [execute_splunk_sdk, h1, h2, fixedWindowCall]
  rcases h3 : se.fetchResults with e3 | entries
  · simp [execute_splunk_sdk, h1, h2, h3, fixedWindowCall]
  · simp [execute_splunk_sdk, h1, h2, h3, fixedWindowCall]

theorem rest_calls_fixed_window (re : RestEnv) (inst : SplunkInstance) (q : List Char) :
    (execute_bearer_rest re inst q).2.all fixedWindowCall = true := by
  rcases h1 : re.postJob with e1 | info
  · simp [execute_bearer_rest, h1, fixedWindowCall]
  rcases h2 : info.sid with _ | s
  · simp [execute_bearer_rest, h1, h2, fixedWindowCall]
  rcases h3 : re.getResults with e3 | body
  · simp [execute_bearer_rest, h1, h2, h3, fixedWindowCall]
  · simp [execute_bearer_rest, h1, h2, h3, fixedWindowCall]

/-- C7: every job-submission transport call issued by `execute` — in
either adapter variant, for every endpoint, query and transport
behaviour — carries exactly `exec_mode="blocking"`,
`earliest_time="-24h"`, `latest_time="now"`; and whenever a submission
happens (SDK path past a successful connect, or any bearer path) the
call with exactly those constants is present in the call list. -/
theorem execute_fixed_window (env : TransportEnv) (inst : SplunkInstance) (q : List Char) :
    ((execute env inst q).2.all fixedWindowCall = true)
    ∧ (inst.auth_type = splunkLit → env.sdk.connect = .ok () →
      CallRec.sdkCreateJob (normalize_query q) blockingLit earliestLit latestLit
        ∈ (execute env inst q).2)
    ∧ (inst.auth_type = bearerLit →
      CallRec.restPost (normalize_query q) blockingLit earliestLit latestLit jsonLit
        ∈ (execute env inst q).2) := by
  refine ⟨?_, fun h hc => ?_, fun h => ?_⟩
  · by_cases hs : inst.auth_type = splunkLit
    · rw [((execute_cases env inst q).1 hs)]
      exact sdk_calls_fixed_window env.sdk inst (normalize_query q)
    by_cases hb : inst.auth_type = bearerLit
    · rw [((execute_cases env inst q).2.1 hb)]
      exact rest_calls_fixed_window env.rest inst (normalize_query q)
    · rw [((execute_cases env inst q).2.2 hs hb)]
      rfl
  · rw [((execute_cases env inst q).1 h)]
    rcases h2 : env.sdk.createJob with e2 | u2 <;>
      rcases h3 : env.sdk.fetchResults with e3 | entries <;>
      simp [execute_splunk_sdk, hc, h2, h3]
  · rw [((execute_cases env inst q).2.1 h)]
    rcases h1 : env.rest.postJob with e1 | info
    · simp [execute_bearer_rest, h1]
    rcases h2 : info.sid with _ | s <;>
      rcases h3 : env.rest.getResults with e3 | body <;>
      simp [execute_bearer_rest, h1, h2, h3]

/-- Witness for C7: a fully successful bearer run issues the POST with
the fixed window, and all its calls satisfy the fixed-window check. -/
theorem execute_fixed_window_witness :
    ((execute ⟨⟨.ok (), .ok (), .ok []⟩, ⟨.ok ⟨some "sid1".toList⟩, .ok (some [])⟩⟩
      ⟨"a".toList, "h".toList, 8089, "https".toList, "bearer".toList,
        "t".toList, true, "search".toList, "admin".toList⟩ "x".toList).2.all
          fixedWindowCall = true)
    ∧ CallRec.restPost (normalize_query "x".toList) blockingLit earliestLit latestLit jsonLit
        ∈ (execute ⟨⟨.ok (), .ok (), .ok []⟩, ⟨.ok ⟨some "sid1".toList⟩, .ok (some [])⟩⟩
          ⟨"a".toList, "h".toList, 8089, "https".toList, "bearer".toList,
            "t".toList, true, "search".toList, "admin".toList⟩ "x".toList).2 :=
  ⟨(execute_fixed_window ⟨⟨.ok (), .ok (), .ok []⟩, ⟨.ok ⟨some "sid1".toList⟩, .ok (some [])⟩⟩
      ⟨"a".toList, "h".toList, 8089, "https".toList, "bearer".toList,
        "t".toList, true, "search".toList, "admin".toList⟩ "x".toList).1,
    (execute_fixed_window ⟨⟨.ok (), .ok (), .ok []⟩, ⟨.ok ⟨some "sid1".toList⟩, .ok (some [])⟩⟩
      ⟨"a".toList, "h".toList, 8089, "https".toList, "bearer".toList,
        "t".toList, true, "search".toList, "admin".toList⟩ "x".toList).2.2 (by decide)⟩

/-- The execution succeeds (no exception reaches the handler): the
dispatched transport path completes without a fault, including a present
sid on the bearer path. -/
def transportOk (env : TransportEnv) (inst : SplunkInstance) : Prop :=
  (inst.auth_type = splunkLit ∧ env.sdk.connect = Except.ok ()
    ∧ env.sdk.createJob = Except.ok ()
    ∧ ∃ entries, env.sdk.fetchResults = Except.ok entries)
  ∨ (inst.auth_type = bearerLit
    ∧ ∃ info s body, env.rest.postJob = Except.ok info
      ∧ info.sid = some s ∧ env.rest.getResults = Except.ok body)

/-- The SDK adapter returns error `none` exactly when every transport
step succeeded. -/
theorem sdk_err_none_iff (se : SdkEnv) (inst : SplunkInstance) (q : List Char) :
    (execute_splunk_sdk se inst q).1.2 = none
      ↔ (se.connect = Except.ok () ∧ se.createJob = Except.ok ()
          ∧ ∃ entries, se.fetchResults = Except.ok entries) := by
  rcases h1 : se.connect with e1 | u1
  · simp [execute_splunk_sdk, h1]
  cases u1
  rcases h2 : se.createJob with e2 | u2
  · simp [execute_splunk_sdk, h1, h2]
  cases u2
  rcases h3 : se.fetchResults with e3 | entries
  · simp [execute_splunk_sdk, h1, h2, h3]
  · simp [execute_splunk_sdk, h1, h2, h3]

/-- The REST adapter returns error `none` exactly when the POST
succeeded, a sid was present, and the GET succeeded. -/
theorem rest_err_none_iff (re : RestEnv) (inst : SplunkInstance) (q : List Char) :
    (execute_bearer_rest re inst q).1.2 = none
      ↔ (∃ info s body, re.postJob = Except.ok info
          ∧ info.sid = some s ∧ re.getResults = Except.ok body) := by
  rcases h1 : re.postJob with e1 | info
  · simp [execute_bearer_rest, h1]
  rcases h2 : info.sid with _ | s
  · simp [execute_bearer_rest, h1, h2]
  rcases h3 : re.getResults with e3 | body
  · simp [execute_bearer_rest, h1, h2, h3]
  · simp [execute_bearer_rest, h1, h2, h3]

/-- C10: for every invocation of `execute`, the error component is
`none` exactly when the execution succeeded (`transportOk`), and the
rows/error pair never mixes: either the row list is empty or the error
is `none` — a failing endpoint never delivers a partial row sequence. -/
theorem execute_rows_error_exclusive (env : TransportEnv) (inst : SplunkInstance)
    (q : List Char) :
    ((execute env inst q).1.1 = [] ∨ (execute env inst q).1.2 = none)
    ∧ ((execute env inst q).1.2 = none ↔ transportOk env inst) := by
  have hsb : splunkLit ≠ bearerLit := by decide
  by_cases hs : inst.auth_type = splunkLit
  · rw [(execute_cases env inst q).1 hs]
    refine ⟨?_, ?_⟩
    · rcases h1 : env.sdk.connect with e1 | u1
      · exact Or.inl (by simp [execute_splunk_sdk, h1])
      rcases h2 : env.sdk.createJob with e2 | u2
      · exact Or.inl (by simp [execute_splunk_sdk, h1, h2])
      rcases h3 : env.sdk.fetchResults with e3 | entries
      · exact Or.inl (by simp [execute_splunk_sdk, h1, h2, h3])
      · exact Or.inr (by simp [execute_splunk_sdk, h1, h2, h3])
    · rw [sdk_err_none_iff]
      constructor
      · intro h
        exact Or.inl ⟨hs, h.1, h.2.1, h.2.2⟩
      · intro h
        rcases h with ⟨_, hrest⟩ | ⟨hbm, _⟩
        · exact hrest
        · exact absurd (hs.symm.trans hbm) hsb
  by_cases hb : inst.auth_type = bearerLit
  · rw [(execute_cases env inst q).2.1 hb]
    refine ⟨?_, ?_⟩
    · rcases h1 : env.rest.postJob with e1 | info
      · exact Or.inl (by simp [execute_bearer_rest, h1])
      rcases h2 : info.sid with _ | s
      · exact Or.inl (by simp [execute_bearer_rest, h1, h2])
      rcases h3 : env.rest.getResults with e3 | body
      · exact Or.inl (by simp [execute_bearer_rest, h1, h2, h3])
      · exact Or.inr (by simp [execute_bearer_rest, h1, h2, h3])
    · rw [rest_err_none_iff]
      constructor
      · intro h
        exact Or.inr ⟨hb, h⟩
      · intro h
        rcases h with ⟨hsm, _⟩ | ⟨_, hrest⟩
        · exact absurd hsm hs
        · exact hrest
  · rw [(execute_cases env inst q).2.2 hs hb]
    refine ⟨Or.inl rfl, ?_⟩
    constructor
    · intro h
      exact absurd h (by simp)
    · intro h
      rcases h with ⟨hsm, _⟩ | ⟨hbm, _⟩
      · exact absurd hsm hs
      · exact absurd hbm hb

/-! ### The aggregation loop (src lines 418-457)

The loop in `main` collects settled futures into the dicts `results`
(endpoint name → rows) and `errors` (endpoint name → message) inside one
`try` block per future: `data, error = future.result()`; if `error` is
truthy, `errors[name] = error`; otherwise `results[name] = data` and
then — still inside the same `try` — the rows are saved to disk and
rendered (src 440-452).  If that save/render step raises, the `except`
at src 454-457 additionally sets
`errors[name] = "Error inesperado: " + str(e)` while `results[name]`
keeps its value, so one endpoint can land in both dicts.  Settlement
order is whatever `as_completed` yields, so the accumulation is
modelled as a fold over the settled units in delivery order; the two
dicts are association lists. -/

/-- One settled unit of the fan-out loop: the endpoint name, the
`(rows, error)` pair delivered by `future.result()`, and — relevant to
the success branch only — the exception text of the save/render block
(src 440-452), `none` when saving and rendering complete. -/
structure UnitRun where
  name : List Char
  outcome : List Row × Option (List Char)
  postFault : Option (List Char)
deriving DecidableEq

def unexpectedLabel : List Char := "Error inesperado: ".toList

/-- The loop body of src 429-457 folded over the settled units:
`if error: errors[name] = error` else `results[name] = data`, followed
on the success branch by the fallible save/render step whose exception
adds `errors[name] = "Error inesperado: " + str(e)` on top of the
already-recorded success entry. -/
def aggregate (l : List UnitRun) :
    List (List Char × List Row) × List (List Char × List Char) :=
  match l with
  | [] => ([], [])
  | u :: rest =>
    let acc := aggregate rest
    match u.outcome.2 with
    | some e => (acc.1, (u.name, e) :: acc.2)
    | none =>
      match u.postFault with
      | some e =>
        ((u.name, u.outcome.1) :: acc.1, (u.name, unexpectedLabel ++ e) :: acc.2)
      | none => ((u.name, u.outcome.1) :: acc.1, acc.2)

/-- The success entry a unit contributes, if any. -/
def succEntryOf (u : UnitRun) : Option (List Char × List Row) :=
  match u.outcome.2 with
  | some _ => none
  | none => some (u.name, u.outcome.1)

/-- The failure entry a unit contributes, if any: its delivered error,
or the converted save/render exception after a recorded success. -/
def failEntryOf (u : UnitRun) : Option (List Char × List Char) :=
  match u.outcome.2 with
  | some e => some (u.name, e)
  | none =>
    match u.postFault with
    | some e => some (u.name, unexpectedLabel ++ e)
    | none => none

theorem aggregate_eq_filterMap (l : List UnitRun) :
    aggregate l = (l.filterMap succEntryOf, l.filterMap failEntryOf) := by
  induction l with
  | nil => rfl
  | cons u rest ih =>
    obtain ⟨m, ⟨rws, err⟩, pf⟩ := u
    cases err with
    | some e =>
      simp [aggregate, succEntryOf, failEntryOf, List.filterMap_cons, ih]
    | none =>
      cases pf with
      | some e2 =>
        simp [aggregate, succEntryOf, failEntryOf, List.filterMap_cons, ih]
      | none =>
        simp [aggregate, succEntryOf, failEntryOf, List.filterMap_cons, ih]

/-- A run with no save/render fault on its success branch: the key lists
of the two maps together are a permutation of the unit names. -/
theorem aggregate_keys_perm (l : List UnitRun)
    (hsave : ∀ u ∈ l, u.outcome.2 = none → u.postFault = none) :
    ((aggregate l).1.map Prod.fst ++ (aggregate l).2.map Prod.fst).Perm
      (l.map UnitRun.name) := by
  induction l with
  | nil => rfl
  | cons u rest ih =>
    have hrest : ∀ v ∈ rest, v.outcome.2 = none → v.postFault = none :=
      fun v hv => hsave v (List.mem_cons_of_mem u hv)
    obtain ⟨m, ⟨rws, err⟩, pf⟩ := u
    cases err with
    | some e =>
      simp only [aggregate, List.map_cons, List.map]
      exact List.Perm.trans List.perm_middle ((ih hrest).cons m)
    | none =>
      have hpf : pf = none :=
        hsave ⟨m, (rws, none), pf⟩ (List.mem_cons_self _ _) rfl
      subst hpf
      simpa [aggregate] using (ih hrest).cons m

/-- C1 counterexample input: a single endpoint whose query succeeds
(rows with heterogeneous field sets, `error = None`) but whose CSV save
step then raises (`csv.DictWriter` rejects rows carrying fields absent
from the header row built from the first record), which src 454-457
converts into an `errors` entry while `results` keeps the endpoint. -/
def saveFaultRun : List UnitRun :=
  [⟨"a".toList,
    ([[("x".toList, "1".toList)], [("y".toList, "2".toList)]], none),
    some "dict contains fields not in fieldnames".toList⟩]

/-- C1 counterexample: the claimed total-outcome invariant is false for
the program as written — after a run over one endpoint with
pairwise-distinct names (trivially), whose save step raises after its
success was recorded, the endpoint's name is in BOTH maps, the key sets
are not disjoint, and `|successes| + |failures| = 2 ≠ 1 = |endpoints|`. -/
theorem aggregate_total_outcome_counterexample :
    (saveFaultRun.map UnitRun.name).Nodup
    ∧ "a".toList ∈ (aggregate saveFaultRun).1.map Prod.fst
    ∧ "a".toList ∈ (aggregate saveFaultRun).2.map Prod.fst
    ∧ (aggregate saveFaultRun).1.length + (aggregate saveFaultRun).2.length = 2
    ∧ saveFaultRun.length = 1 := by
  decide

/-- C1 amended: for every run over settled units with pairwise-distinct
names IN WHICH NO successful unit's save/render step raises, the key
sets of the successes map and the failures map are disjoint, their
union is exactly the input name set, and
`|successes| + |failures| = |endpoints|`.  (Without that proviso the
invariant fails: see the counterexample.) -/
theorem aggregate_total_outcome (l : List UnitRun)
    (hnd : (l.map UnitRun.name).Nodup)
    (hsave : ∀ u ∈ l, u.outcome.2 = none → u.postFault = none) :
    (∀ n, (n ∈ (aggregate l).1.map Prod.fst ∨ n ∈ (aggregate l).2.map Prod.fst)
      ↔ n ∈ l.map UnitRun.name)
    ∧ (∀ n, ¬(n ∈ (aggregate l).1.map Prod.fst ∧ n ∈ (aggregate l).2.map Prod.fst))
    ∧ (aggregate l).1.length + (aggregate l).2.length = l.length := by
  have hperm := aggregate_keys_perm l hsave
  refine ⟨fun n => ?_, fun n => ?_, ?_⟩
  · rw [← hperm.mem_iff]
    exact (List.mem_append).symm
  · intro ⟨h1, h2⟩
    have hnd2 : ((aggregate l).1.map Prod.fst ++ (aggregate l).2.map Prod.fst).Nodup :=
      hperm.nodup_iff.mpr hnd
    exact (List.disjoint_of_nodup_append hnd2) h1 h2
  · have := hperm.length_eq
    simpa using this

/-- Witness for the amended C1 on a concrete three-endpoint run with no
save-step fault: one success, one failure, one success. -/
theorem aggregate_total_outcome_witness :
    ((["a".toList, "b".toList, "c".toList].Nodup)
      ∧ ((aggregate [⟨"a".toList, ([], none), none⟩,
            ⟨"b".toList, ([], some "Error REST: x".toList), none⟩,
            ⟨"c".toList, ([[("f".toList, "v".toList)]], none), none⟩]).1.length
          + (aggregate [⟨"a".toList, ([], none), none⟩,
              ⟨"b".toList, ([], some "Error REST: x".toList), none⟩,
              ⟨"c".toList, ([[("f".toList, "v".toList)]], none), none⟩]).2.length = 3)) := by
  have h := aggregate_total_outcome
    [⟨"a".toList, ([], none), none⟩,
      ⟨"b".toList, ([], some "Error REST: x".toList), none⟩,
      ⟨"c".toList, ([[("f".toList, "v".toList)]], none), none⟩]
    (by decide) (by decide)
  exact ⟨by decide, h.2.2⟩

/-- Keys of entries contributed by units are the units' names, so each
map's key list embeds into the run's name list. -/
theorem filterMap_keys_sublist {β : Type} (g : UnitRun → Option (List Char × β))
    (hg : ∀ u x, g u = some x → x.1 = u.name) (l : List UnitRun) :
    ((l.filterMap g).map Prod.fst).Sublist (l.map UnitRun.name) := by
  induction l with
  | nil => simp
  | cons u rest ih =>
    cases hgu : g u with
    | none =>
      simp only [List.filterMap_cons, hgu, List.map_cons]
      exact ih.cons _
    | some x =>
      simp only [List.filterMap_cons, hgu, List.map_cons, hg u x hgu]
      exact ih.cons₂ _

theorem succEntryOf_key (u : UnitRun) (x : List Char × List Row)
    (h : succEntryOf u = some x) : x.1 = u.name := by
  unfold succEntryOf at h
  rcases he : u.outcome.2 with _ | e
  · rw [he] at h
    rw [← Option.some_inj.mp h]
  · rw [he] at h
    exact absurd h (by simp)

theorem failEntryOf_key (u : UnitRun) (x : List Char × List Char)
    (h : failEntryOf u = some x) : x.1 = u.name := by
  unfold failEntryOf at h
  rcases he : u.outcome.2 with _ | e
  · rw [he] at h
    rcases hp : u.postFault with _ | e2
    · rw [hp] at h
      exact absurd h (by simp)
    · rw [hp] at h
      rw [← Option.some_inj.mp h]
  · rw [he] at h
    rw [← Option.some_inj.mp h]

/-- With pairwise-distinct keys, association-list lookup is membership. -/
theorem lookup_eq_some_iff_mem {β : Type} (l : List (List Char × β))
    (hnd : (l.map Prod.fst).Nodup) (n : List Char) (v : β) :
    l.lookup n = some v ↔ (n, v) ∈ l := by
  induction l with
  | nil => simp [List.lookup]
  | cons hd rest ih =>
    obtain ⟨a, b⟩ := hd
    have hnd2 : (rest.map Prod.fst).Nodup := (List.nodup_cons.mp hnd).2
    by_cases hna : n = a
    · subst hna
      have hnot : n ∉ rest.map Prod.fst := (List.nodup_cons.mp hnd).1
      simp only [List.lookup, beq_self_eq_true]
      constructor
      · intro h
        rw [Option.some_inj] at h
        rw [← h]
        exact List.mem_cons_self _ _
      · intro h
        rcases List.mem_cons.mp h with h1 | h2
        · rw [Option.some_inj]
          exact ((Prod.ext_iff.mp h1).2).symm
        · exact absurd (List.mem_map_of_mem Prod.fst h2) hnot
    · have hba : (n == a) = false := beq_eq_false_iff_ne.mpr hna
      simp [List.lookup, hba, ih hnd2, Prod.ext_iff, hna]

/-- Association lists that are permutations of each other with
duplicate-free keys have identical lookups. -/
theorem lookup_eq_of_perm_nodup {β : Type} (l1 l2 : List (List Char × β))
    (hp : l1.Perm l2) (hnd : (l1.map Prod.fst).Nodup) (n : List Char) :
    l1.lookup n = l2.lookup n := by
  have hnd2 : (l2.map Prod.fst).Nodup := ((hp.map Prod.fst).nodup_iff).mp hnd
  apply Option.ext
  intro v
  simp only [Option.mem_def]
  rw [lookup_eq_some_iff_mem _ hnd, lookup_eq_some_iff_mem _ hnd2]
  exact hp.mem_iff

/-- C8: for a fixed multiset of settled per-endpoint units with
pairwise-distinct names, the successes and failures maps produced by the
aggregation are identical (same lookup at every name) under every
delivery order of those units: completion order cannot change the
report's content. -/
theorem aggregate_order_independent (l1 l2 : List UnitRun)
    (hp : l1.Perm l2) (hnd : (l1.map UnitRun.name).Nodup) :
    ∀ n, (aggregate l1).1.lookup n = (aggregate l2).1.lookup n
      ∧ (aggregate l1).2.lookup n = (aggregate l2).2.lookup n := by
  intro n
  rw [aggregate_eq_filterMap l1, aggregate_eq_filterMap l2]
  constructor
  · exact lookup_eq_of_perm_nodup _ _ (hp.filterMap succEntryOf)
      ((filterMap_keys_sublist succEntryOf succEntryOf_key l1).nodup hnd) n
  · exact lookup_eq_of_perm_nodup _ _ (hp.filterMap failEntryOf)
      ((filterMap_keys_sublist failEntryOf failEntryOf_key l1).nodup hnd) n

/-- Witness for C8: two delivery orders of the same two settled units
yield the same maps at every name. -/
theorem aggregate_order_independent_witness :
    (([⟨"a".toList, (([] : List Row), none), none⟩,
        ⟨"b".toList, ([], some "Error REST: x".toList), none⟩] : List UnitRun).Perm
      [⟨"b".toList, ([], some "Error REST: x".toList), none⟩,
        ⟨"a".toList, (([] : List Row), none), none⟩])
    ∧ ∀ n,
      (aggregate [⟨"a".toList, (([] : List Row), none), none⟩,
          ⟨"b".toList, ([], some "Error REST: x".toList), none⟩]).1.lookup n
        = (aggregate [⟨"b".toList, ([], some "Error REST: x".toList), none⟩,
            ⟨"a".toList, (([] : List Row), none), none⟩]).1.lookup n
      ∧ (aggregate [⟨"a".toList, (([] : List Row), none), none⟩,
          ⟨"b".toList, ([], some "Error REST: x".toList), none⟩]).2.lookup n
        = (aggregate [⟨"b".toList, ([], some "Error REST: x".toList), none⟩,
            ⟨"a".toList, (([] : List Row), none), none⟩]).2.lookup n :=
  ⟨List.Perm.swap _ _ _, aggregate_order_independent _ _ (List.Perm.swap _ _ _) (by decide)⟩

/-! ### The bounded dispatch pool (src lines 423-429)

The function `main` submits one unit of work per endpoint to a
`ThreadPoolExecutor(max_workers=args.parallel)` and waits for every
future.  The pool itself is library code not present under `src/`, so
its documented `max_workers` contract is modelled from the spec as a
step relation on dispatcher states. -/

/-- Modelled from the spec: the state of the bounded pool — which
endpoint units are still pending, in flight, and settled.  The missing
part is `concurrent.futures.ThreadPoolExecutor`, specified as "a bounded
pool (at most `concurrencyLimit` units running simultaneously; excess
units wait)". -/
structure DispatchState where
  pending : List (List Char)
  running : List (List Char)
  settled : List (List Char)
deriving DecidableEq

/-- Modelled from the spec: one scheduling step of the pool under
concurrency limit `k` — a pending unit may start only while fewer than
`k` units are in flight; an in-flight unit may settle at any moment, in
any order. -/
inductive PoolStep (k : Nat) : DispatchState → DispatchState → Prop where
  | start (n : List Char) (pend run fin : List (List Char)) :
      run.length < k →
      PoolStep k ⟨n :: pend, run, fin⟩ ⟨pend, n :: run, fin⟩
  | finish (n : List Char) (pend run1 run2 fin : List (List Char)) :
      PoolStep k ⟨pend, run1 ++ n :: run2, fin⟩ ⟨pend, run1 ++ run2, n :: fin⟩

/-- A pool step conserves the multiset of endpoint units. -/
theorem poolStep_conserves {k : Nat} {s s' : DispatchState} (h : PoolStep k s s') :
    (s'.pending ++ s'.running ++ s'.settled).Perm
      (s.pending ++ s.running ++ s.settled) := by
  cases h with
  | start n pend run fin hlt =>
    simp only [List.append_assoc, List.cons_append]
    exact List.perm_middle
  | finish n pend run1 run2 fin =>
    simp only [List.append_assoc, List.cons_append]
    refine List.Perm.append_left pend (List.Perm.append_left run1 ?_)
    exact List.perm_middle

/-- A pool step keeps the number of in-flight units at or below `k`. -/
theorem poolStep_bound {k : Nat} {s s' : DispatchState} (h : PoolStep k s s')
    (hb : s.running.length ≤ k) : s'.running.length ≤ k := by
  cases h with
  | start n pend run fin hlt => simpa using hlt
  | finish n pend run1 run2 fin =>
    simp only [List.length_append, List.length_cons] at hb ⊢
    omega

/-- Both invariants hold in every state reachable from the initial
dispatch of `names`. -/
theorem poolReachable_inv (k : Nat) (names : List (List Char)) (s : DispatchState)
    (h : Relation.ReflTransGen (PoolStep k) ⟨names, [], []⟩ s) :
    s.running.length ≤ k ∧ (s.pending ++ s.running ++ s.settled).Perm names := by
  induction h with
  | refl => exact ⟨by simp, by simp⟩
  | tail h1 h2 ih => exact ⟨poolStep_bound h2 ih.1, (poolStep_conserves h2).trans ih.2⟩

/-- While any unit is pending or in flight, the pool can always step
(no deadlock), provided the limit is positive. -/
theorem pool_progress (k : Nat) (hk : 0 < k) (s : DispatchState)
    (hne : ¬(s.pending = [] ∧ s.running = [])) :
    ∃ s', PoolStep k s s' := by
  obtain ⟨pend, run, fin⟩ := s
  rcases run with _ | ⟨r, run2⟩
  · rcases pend with _ | ⟨p, pend2⟩
    · exact absurd ⟨rfl, rfl⟩ hne
    · exact ⟨_, PoolStep.start p pend2 [] fin (by simpa using hk)⟩
  · exact ⟨_, PoolStep.finish r pend [] run2 fin⟩

/-- Every pool step strictly decreases `2·|pending| + |running|`. -/
theorem poolStep_measure {k : Nat} {s s' : DispatchState} (h : PoolStep k s s') :
    2 * s'.pending.length + s'.running.length + 1
      = 2 * s.pending.length + s.running.length := by
  cases h with
  | start n pend run fin hlt => simp; omega
  | finish n pend run1 run2 fin =>
    simp only [List.length_append, List.length_cons]
    omega

/-- From any state, with a positive limit, a fully settled state is
reachable whose settled units are exactly the units of the state. -/
theorem pool_settles_aux (k : Nat) (hk : 0 < k) :
    ∀ m (s : DispatchState), 2 * s.pending.length + s.running.length ≤ m →
      ∃ t, Relation.ReflTransGen (PoolStep k) s t ∧ t.pending = [] ∧ t.running = []
        ∧ t.settled.Perm (s.pending ++ s.running ++ s.settled) := by
  intro m
  induction m with
  | zero =>
    intro s hm
    have hp : s.pending.length = 0 := by omega
    have hr : s.running.length = 0 := by omega
    have hp2 : s.pending = [] := List.length_eq_zero.mp hp
    have hr2 : s.running = [] := List.length_eq_zero.mp hr
    exact ⟨s, Relation.ReflTransGen.refl, hp2, hr2, by simp [hp2, hr2]⟩
  | succ m ih =>
    intro s hm
    by_cases hdone : s.pending = [] ∧ s.running = []
    · exact ⟨s, Relation.ReflTransGen.refl, hdone.1, hdone.2, by simp [hdone.1, hdone.2]⟩
    · obtain ⟨s', hstep⟩ := pool_progress k hk s hdone
      have hm' : 2 * s'.pending.length + s'.running.length ≤ m := by
        have := poolStep_measure hstep
        omega
      obtain ⟨t, htr, hp, hr, hperm⟩ := ih s' hm'
      exact ⟨t, Relation.ReflTransGen.head hstep htr, hp, hr,
        hperm.trans (poolStep_conserves hstep)⟩

/-- C9: in every run of the bounded pool with concurrency limit `k > 0`,
every reachable dispatcher state has at most `k` units in flight, no
unit is ever lost (pending, in-flight and settled units are exactly the
scheduled endpoints), and from every reachable state the run can
continue until every scheduled unit has settled. -/
theorem dispatcher_bounded_and_settles (k : Nat) (names : List (List Char))
    (s : DispatchState) (hk : 0 < k)
    (h : Relation.ReflTransGen (PoolStep k) ⟨names, [], []⟩ s) :
    s.running.length ≤ k
    ∧ (s.pending ++ s.running ++ s.settled).Perm names
    ∧ ∃ t, Relation.ReflTransGen (PoolStep k) s t
        ∧ t.pending = [] ∧ t.running = [] ∧ t.settled.Perm names := by
  have hinv := poolReachable_inv k names s h
  refine ⟨hinv.1, hinv.2, ?_⟩
  obtain ⟨t, htr, hp, hr, hperm⟩ :=
    pool_settles_aux k hk (2 * s.pending.length + s.running.length) s le_rfl
  exact ⟨t, htr, hp, hr, hperm.trans hinv.2⟩

/-- Witness for C9: five endpoints under limit 2, at the initial state. -/
theorem dispatcher_bounded_and_settles_witness :
    (0 < 2)
    ∧ ((⟨["a".toList, "b".toList, "c".toList, "d".toList, "e".toList], [], []⟩ :
          DispatchState).running.length ≤ 2
      ∧ (((⟨["a".toList, "b".toList, "c".toList, "d".toList, "e".toList], [], []⟩ :
            DispatchState).pending
          ++ (⟨["a".toList, "b".toList, "c".toList, "d".toList, "e".toList], [], []⟩ :
            DispatchState).running
          ++ (⟨["a".toList, "b".toList, "c".toList, "d".toList, "e".toList], [], []⟩ :
            DispatchState).settled).Perm
          ["a".toList, "b".toList, "c".toList, "d".toList, "e".toList]
      ∧ ∃ t, Relation.ReflTransGen (PoolStep 2)
            ⟨["a".toList, "b".toList, "c".toList, "d".toList, "e".toList], [], []⟩ t
          ∧ t.pending = [] ∧ t.running = []
          ∧ t.settled.Perm ["a".toList, "b".toList, "c".toList, "d".toList, "e".toList])) :=
  ⟨by decide,
    dispatcher_bounded_and_settles 2
      ["a".toList, "b".toList, "c".toList, "d".toList, "e".toList]
      ⟨["a".toList, "b".toList, "c".toList, "d".toList, "e".toList], [], []⟩
      (by decide) Relation.ReflTransGen.refl⟩
